import Mathlib

/-!
# Verification of the dictation session-lifecycle core

Shallow embedding of `src/automation_scripts/dictation/dictate.py`.

Conventions of the embedding:
* Strings are `List Char`; Python `str.split()` / `str.strip()` /
  `str.upper()` are modelled on the ASCII whitespace characters recognised
  by `Char.isWhitespace` (space, tab, CR, LF) and the ASCII letter range.
* The filesystem and process world visible to the program is a state `St`:
  the lock file (the session marker), the set of existing audio files, and
  an append-only event trace recording the side effects the code performs
  (notifications, marker writes and deletions, signals, text delivery).
* External collaborators (audio device, whisper engine, xdotool, xclip,
  process liveness) are oracles collected in `Env`.  Process liveness is a
  function of a probe counter so that it may change between the successive
  `os.kill`-based checks the code performs; every `os.kill` call (probe,
  SIGTERM, SIGKILL) consumes one probe index, and a termination signal
  raises `ProcessLookupError` exactly when the target is not alive at the
  index consumed by that call.
* Exit codes are `Nat` (`0` success, `1` error), matching the scriptʼs
  `return 0` / `return 1` / `sys.exit(...)`.
-/

set_option autoImplicit false

namespace Dictation

/-! ## Python string primitives -/

/-- Python `str.lstrip()`: drop leading whitespace. -/
def lstrip (l : List Char) : List Char := l.dropWhile Char.isWhitespace

/-- Python `str.rstrip()`: drop trailing whitespace (structural version:
`rstrip (c :: cs)` keeps `c` unless everything after it is whitespace). -/
def rstrip : List Char → List Char
  | [] => []
  | c :: cs =>
    match rstrip cs with
    | [] => if c.isWhitespace then [] else [c]
    | r => c :: r

/-- Python `str.strip()`. -/
def py_strip (l : List Char) : List Char := rstrip (lstrip l)

/-- Helper for `str.split()` with no argument: `acc` is the current word,
reversed.  Runs of whitespace separate words; no empty words appear. -/
def py_split_aux : List Char → List Char → List (List Char)
  | [], acc => if acc.isEmpty then [] else [acc.reverse]
  | c :: rest, acc =>
    if c.isWhitespace then
      if acc.isEmpty then py_split_aux rest []
      else acc.reverse :: py_split_aux rest []
    else py_split_aux rest (c :: acc)

/-- Python `text.split()`. -/
def py_split (l : List Char) : List (List Char) := py_split_aux l []

/-- Python `" ".join(parts)`. -/
def join_space : List (List Char) → List Char
  | [] => []
  | [w] => w
  | w :: v :: rest => w ++ ' ' :: join_space (v :: rest)

/-- Python `str.upper()` on a single character (ASCII range, as produced by
the transcription engine). -/
def py_upper (c : Char) : Char :=
  if 97 ≤ c.toNat ∧ c.toNat ≤ 122 then Char.ofNat (c.toNat - 32) else c

/-- `text[0].upper() + text[1:]` (for a one-character string Python runs
`text.upper()`, which agrees). -/
def capitalize_first : List Char → List Char
  | [] => []
  | c :: rest => py_upper c :: rest

/-- Text-processing configuration drawn from `CONFIG` (dictate.py lines
85-109): `strip_leading` and `strip_trailing` both mirror the
`text.strip_spaces` setting, `auto_capitalize` mirrors
`text.auto_capitalize`, the rest are the toggles the coordinator reads. -/
structure Config where
  strip_leading : Bool
  strip_trailing : Bool
  auto_capitalize : Bool
  clear_modifiers : Bool
  keep_temp : Bool
  show_transcription : Bool
  enable_notifications : Bool
deriving DecidableEq

/-- `process_text` (dictate.py lines 126-152). -/
def process_text (cfg : Config) (text : List Char) : List Char :=
  if text.isEmpty then text
  else
    let t1 := if cfg.strip_leading then lstrip text else text
    let t2 := if cfg.strip_trailing then rstrip t1 else t1
    let t3 := if cfg.auto_capitalize && !t2.isEmpty then capitalize_first t2 else t2
    join_space (py_split t3)

/-- No two adjacent whitespace characters. -/
def all_single_spaced : List Char → Bool
  | [] => true
  | [_] => true
  | a :: b :: rest => !(a.isWhitespace && b.isWhitespace) && all_single_spaced (b :: rest)

/-- Fully normalised text: every whitespace character is a plain space, no
two adjacent whitespace characters, and no leading or trailing whitespace. -/
def is_normalized (l : List Char) : Bool :=
  l.all (fun c => !c.isWhitespace || c == ' ') &&
  all_single_spaced l &&
  (match l.head? with | some c => !c.isWhitespace | none => true) &&
  (match l.getLast? with | some c => !c.isWhitespace | none => true)

/-! ## Session marker, filesystem and process model -/

/-- Parsed contents of the lock file (the session marker).  Fields are
`Option`s because the code reads them with `dict.get`, which yields `None`
for a missing key. -/
structure LockData where
  pid : Option Nat
  started_at : Option Nat
  audio_file : Option (List Char)
  device : Option (List Char)
  sample_rate : Option Nat
  channels : Option Nat
deriving DecidableEq

/-- What is physically in the lock file: JSON that parses to a `LockData`,
or bytes on which `json.load` raises `JSONDecodeError`.  A `parsed` value
models a non-empty JSON object (the start path always writes one, so the
truthiness test `if lock_data:` in `handle_toggle` sees it as true). -/
inductive LockContent
  | parsed (d : LockData)
  | corrupt
deriving DecidableEq

/-- Observable side effects, in chronological order. -/
inductive Event
  | note (title msg : List Char)
  | write_lock (d : LockData)
  | unlink_lock
  | write_wav (path : List Char) (samples : List Int)
  | unlink_audio (path : List Char)
  | sigterm (pid : Nat)
  | sigkill (pid : Nat)
  | type_text (text : List Char)
  | clip_copy (text : List Char)
deriving DecidableEq

/-- The world state the script can observe and mutate. -/
structure St where
  lock : Option LockContent
  audio_files : List (List Char)
  probe_idx : Nat
  events : List Event
deriving DecidableEq

/-- Outcome of the `subprocess.run(["xdotool", "type", ...])` call. -/
inductive XdoOutcome
  | ok | timeout | not_found | failed | other
deriving DecidableEq

/-- How the recording phase of `start_recording` ends: the registered
signal handler runs with the buffered chunks (`wav_ok` is whether the WAV
write raises), or the stream raises `PortAudioError` or another exception. -/
inductive RecordOutcome
  | signaled (chunks : List (List Int)) (wav_ok : Bool)
  | port_audio_error
  | other_error
deriving DecidableEq

/-- Oracles for the external collaborators.  `alive_at i pid` is the result
of the `i`-th liveness observation (signal-0 probe or termination signal)
performed during the run. -/
structure Env where
  alive_at : Nat → Nat → Bool
  device_ok : Bool
  device_name : List Char
  mkdir_ok : Bool
  lock_write_ok : Bool
  self_pid : Nat
  now : Nat
  record_outcome : RecordOutcome
  whisper_available : Bool
  engine : Option (List (List Char))
  xdotool : XdoOutcome
  xclip_ok : Bool
  xsel_ok : Bool
  cfg : Config

/-- Append an event to the trace. -/
def emit (e : Event) (s : St) : St := { s with events := s.events ++ [e] }

/-- `_send_notification` / `_send_notification_static`: a no-op when
notifications are disabled, otherwise records the notification. -/
def notify (cfg : Config) (title msg : List Char) (s : St) : St :=
  if cfg.enable_notifications then emit (.note title msg) s else s

/-- `LOCK_FILE.unlink()`. -/
def unlink_lock_file (s : St) : St :=
  { s with lock := none, events := s.events ++ [Event.unlink_lock] }

/-- `is_process_running` / `_is_process_running`: one `os.kill(pid, 0)`
probe; consumes a probe index. -/
def probe (env : Env) (pid : Nat) (s : St) : Bool × St :=
  (env.alive_at s.probe_idx pid, { s with probe_idx := s.probe_idx + 1 })

/-- `read_lock_file` (dictate.py lines 753-768): parse failure and a missing
file both yield `None`; the function only reads (and prints a warning), it
never touches the marker. -/
def read_lock_file (s : St) : Option LockData × St :=
  match s.lock with
  | none => (none, s)
  | some (.parsed d) => (some d, s)
  | some .corrupt => (none, s)

/-- `cleanup_stale_lock` (lines 743-750). -/
def cleanup_stale_lock (s : St) : St :=
  if s.lock.isSome then unlink_lock_file s else s

/-- `_save_audio_data` (lines 678-718): empty buffer is a reported failure;
otherwise `np.concatenate(self.audio_data, axis=0)` is written to the WAV
file (`wav_ok` false models the `except` branch of the write). -/
def save_audio_data (cfg : Config) (wav_ok : Bool) (chunks : List (List Int))
    (path : List Char) (s : St) : Bool × St :=
  if chunks.isEmpty then (false, s)
  else if wav_ok then
    let samples := chunks.flatten
    let s := { s with audio_files := path :: s.audio_files,
                      events := s.events ++ [Event.write_wav path samples] }
    (true, notify cfg "✅ Dictation".data "Recording stopped".data s)
  else (false, notify cfg "Dictation Error".data "Failed to save audio".data s)

/-- `_signal_handler` (lines 720-740): stop the stream, flush, delete the
marker whether or not the flush succeeded, and exit 0 or 1 accordingly. -/
def signal_handler (cfg : Config) (wav_ok : Bool) (chunks : List (List Int))
    (path : List Char) (s : St) : Nat × St :=
  let r := save_audio_data cfg wav_ok chunks path s
  if r.1 then (0, if r.2.lock.isSome then unlink_lock_file r.2 else r.2)
  else (1, if r.2.lock.isSome then unlink_lock_file r.2 else r.2)

/-- `start_recording` after the existing-marker check (lines 490-594):
device preflight, temp directory, marker write, stream start and the
blocking record loop that ends in the signal handler or an exception. -/
def start_preflight (env : Env) (s : St) : Nat × St :=
  if !env.device_ok then
    (1, notify env.cfg "Dictation Error".data
          ("Audio device error: ".data ++ env.device_name) s)
  else if !env.mkdir_ok then
    (1, notify env.cfg "Dictation Error".data "Cannot create temp directory".data s)
  else
    let path := "/tmp/dictation/recording-".data ++ (Nat.repr env.self_pid).data
                  ++ "-".data ++ (Nat.repr env.now).data ++ ".wav".data
    let d : LockData :=
      { pid := some env.self_pid, started_at := some env.now,
        audio_file := some path, device := some env.device_name,
        sample_rate := some 16000, channels := some 1 }
    if !env.lock_write_ok then (1, s)
    else
      let s := { s with lock := some (.parsed d),
                        events := s.events ++ [Event.write_lock d] }
      match env.record_outcome with
      | .port_audio_error =>
          let s := notify env.cfg "Dictation Error".data "Audio device error".data s
          (1, if s.lock.isSome then unlink_lock_file s else s)
      | .other_error =>
          let s := notify env.cfg "Dictation Error".data "Recording error".data s
          (1, if s.lock.isSome then unlink_lock_file s else s)
      | .signaled chunks wav_ok =>
          let s := notify env.cfg "🎙️ Dictation".data "Recording started...".data s
          signal_handler env.cfg wav_ok chunks path s

/-- `start_recording` (lines 464-594).  The opening marker check: a marker
whose `pid` is truthy and alive aborts; a stale, pid-less or unparseable
marker is unlinked and the start continues. -/
def start_recording (env : Env) (s : St) : Nat × St :=
  match s.lock with
  | some (.parsed d) =>
      match d.pid with
      | some (q+1) =>
          let pr := probe env (q+1) s
          if pr.1 then
            (1, notify env.cfg "Dictation Error".data
                  "Recording already in progress".data pr.2)
          else
            start_preflight env (unlink_lock_file pr.2)
      | some 0 => start_preflight env (unlink_lock_file s)
      | none => start_preflight env (unlink_lock_file s)
  | some .corrupt => start_preflight env (unlink_lock_file s)
  | none => start_preflight env s

/-- The `for i in range(50)` wait loop of `stop_recording` (lines 639-643):
up to `n` liveness polls at 0.1 s intervals; returns `some 0` as soon as a
poll sees the owner dead. -/
def stop_wait_loop (env : Env) (pid : Nat) : Nat → St → Option Nat × St
  | 0, s => (none, s)
  | n+1, s =>
      let pr := probe env pid s
      if !pr.1 then (some 0, pr.2)
      else stop_wait_loop env pid n pr.2

/-- `stop_recording` (lines 596-667).  A missing marker, an unparseable
marker, a pid-less marker and a dead owner are all errors (`return 1`); a
live owner gets SIGTERM, the 5-second poll loop, and a SIGKILL escalation.
A termination signal raises `ProcessLookupError` (handled as "already
terminated", exit 0) exactly when the owner is dead at that instant. -/
def stop_recording (env : Env) (s : St) : Nat × St :=
  match s.lock with
  | none => (1, notify env.cfg "Dictation Error".data "No recording in progress".data s)
  | some .corrupt => (1, unlink_lock_file s)
  | some (.parsed d) =>
      match d.pid with
      | none => (1, unlink_lock_file s)
      | some 0 => (1, unlink_lock_file s)
      | some (q+1) =>
          let p := q+1
          let pr := probe env p s
          if !pr.1 then (1, unlink_lock_file pr.2)
          else
            let s1 := emit (.sigterm p) pr.2
            let pk := probe env p s1
            if !pk.1 then
              (0, if pk.2.lock.isSome then unlink_lock_file pk.2 else pk.2)
            else
              let lr := stop_wait_loop env p 50 pk.2
              match lr.1 with
              | some r => (r, lr.2)
              | none =>
                  let pr2 := probe env p lr.2
                  if pr2.1 then
                    let s2 := emit (.sigkill p) pr2.2
                    let pk2 := probe env p s2
                    if !pk2.1 then
                      (0, if pk2.2.lock.isSome then unlink_lock_file pk2.2 else pk2.2)
                    else
                      (1, if pk2.2.lock.isSome then unlink_lock_file pk2.2 else pk2.2)
                  else (0, pr2.2)

/-- `text[:100] + ("..." if len(text) > 100 else "")`. -/
def preview_of (text : List Char) : List Char :=
  text.take 100 ++ (if 100 < text.length then "...".data else [])

/-- `paste_text_xdotool` (lines 314-364): the `type_text` event is the
injection attempt; every failure mode sends its own error notification
before returning `False`. -/
def paste_text_xdotool (env : Env) (text : List Char) (s : St) : Bool × St :=
  if text.isEmpty then (false, s)
  else
    let s := emit (.type_text text) s
    match env.xdotool with
    | .ok => (true, s)
    | .timeout =>
        (false, notify env.cfg "❌ Dictation Error".data "Text pasting timed out".data s)
    | .not_found =>
        (false, notify env.cfg "❌ Dictation Error".data
          "xdotool not installed. Install with: sudo pacman -S xdotool".data s)
    | .failed =>
        (false, notify env.cfg "❌ Dictation Error".data "xdotool failed".data s)
    | .other =>
        (false, notify env.cfg "❌ Dictation Error".data "Text injection error".data s)

/-- `copy_to_clipboard` (lines 367-407): the `clip_copy` event is the
clipboard attempt (xclip, then xsel as fallback); no notifications. -/
def copy_to_clipboard (env : Env) (text : List Char) (s : St) : Bool × St :=
  if text.isEmpty then (false, s)
  else
    let s := emit (.clip_copy text) s
    if env.xclip_ok then (true, s)
    else if env.xsel_ok then (true, s)
    else (false, s)

/-- `transcribe_audio` (lines 155-287) as seen by the toggle coordinator:
`none` models a raised exception (whisper missing, file missing, engine
failure); on success the engine segments are joined with spaces and passed
through `process_text`. -/
def transcribe_audio (env : Env) (path : List Char) (s : St) :
    Option (List Char) × St :=
  if !env.whisper_available then (none, s)
  else if !(s.audio_files.contains path) then (none, s)
  else
    let s := notify env.cfg "⏳ Transcribing...".data "Processing your audio".data s
    match env.engine with
    | none =>
        (none, notify env.cfg "❌ Transcription Error".data "engine error".data s)
    | some segs =>
        let text := process_text env.cfg (join_space segs)
        let s :=
          if env.cfg.show_transcription then
            notify env.cfg "✅ Transcription Complete".data (preview_of text) s
          else
            notify env.cfg "✅ Transcription Complete".data "Processing your audio".data s
        (some text, s)

/-- The delivery ladder of `handle_toggle` (lines 859-888): xdotool, then
clipboard, then a notification carrying a truncated preview. -/
def toggle_deliver (env : Env) (text : List Char) (s : St) : St :=
  let wc := (py_split text).length
  let s := notify env.cfg "📝 Dictation".data
             ("Pasting ".data ++ (Nat.repr wc).data ++ " words...".data) s
  let r := paste_text_xdotool env text s
  if r.1 then
    notify env.cfg "✅ Dictation".data
      ("Done! Pasted ".data ++ (Nat.repr wc).data ++ " words".data) r.2
  else
    let r2 := copy_to_clipboard env text r.2
    if r2.1 then
      notify env.cfg "⚠️ Dictation".data
        ("Text copied to clipboard (".data ++ (Nat.repr wc).data
          ++ " words)\nPaste manually with Ctrl+V".data) r2.2
    else
      notify env.cfg "⚠️ Dictation".data
        ("Could not paste or copy to clipboard.\nText: ".data ++ preview_of text) r2.2

/-- The cleanup epilogue of `handle_toggle` (lines 853-857 and 890-896):
clear any residual marker, delete the audio file unless retention is
configured. -/
def toggle_cleanup (env : Env) (path : List Char) (s : St) : St :=
  let s := cleanup_stale_lock s
  if !env.cfg.keep_temp && s.audio_files.contains path then
    { s with audio_files := s.audio_files.erase path,
             events := s.events ++ [Event.unlink_audio path] }
  else s

/-- The transcription stage of `handle_toggle` (lines 837-908): any raised
exception becomes cleanup-then-fail; empty or whitespace-only text is the
non-error "no speech detected" path; otherwise deliver, then clean up. -/
def toggle_transcribe (env : Env) (path : List Char) (s : St) : Nat × St :=
  let s := notify env.cfg "⏳ Dictation".data "Transcribing...".data s
  let r := transcribe_audio env path s
  match r.1 with
  | none =>
      let s := notify env.cfg "❌ Dictation Error".data "Transcription failed".data r.2
      (1, cleanup_stale_lock s)
  | some text =>
      if text.isEmpty || (py_strip text).isEmpty then
        let s := notify env.cfg "⚠️ Dictation".data "No speech detected".data r.2
        (0, toggle_cleanup env path s)
      else
        let s := toggle_deliver env text r.2
        (0, toggle_cleanup env path s)

/-- The live-marker branch of `handle_toggle` (lines 812-908): stop the
recorder, verify the audio file, transcribe. -/
def toggle_stop (env : Env) (d : LockData) (s : St) : Nat × St :=
  let r := stop_recording env s
  if r.1 ≠ 0 then
    (r.1, notify env.cfg "❌ Dictation Error".data "Failed to stop recording".data r.2)
  else
    match d.audio_file with
    | none =>
        let s := notify env.cfg "❌ Dictation Error".data "Audio file not found".data r.2
        (1, cleanup_stale_lock s)
    | some path =>
        if path.isEmpty || !(r.2.audio_files.contains path) then
          let s := notify env.cfg "❌ Dictation Error".data "Audio file not found".data r.2
          (1, cleanup_stale_lock s)
        else toggle_transcribe env path r.2

/-- `handle_toggle` (lines 788-912).  A marker with a truthy pid whose owner
is dead is the stale case: notify, clean up, `return 0`.  A readable marker
otherwise goes to the stop path; no readable marker starts a recording. -/
def handle_toggle (env : Env) (s : St) : Nat × St :=
  match (read_lock_file s).1 with
  | some d =>
      match d.pid with
      | some (q+1) =>
          let pr := probe env (q+1) s
          if !pr.1 then
            let s2 := notify env.cfg "🔧 Dictation".data
                        "Cleaning up stale recording session...".data pr.2
            (0, cleanup_stale_lock s2)
          else toggle_stop env d pr.2
      | some 0 => toggle_stop env d s
      | none => toggle_stop env d s
  | none => start_recording env s

/-- The four error-notification bodies of `paste_text_xdotool` (lines
352-364), selected by the failure mode. -/
def xdo_fail_msg : XdoOutcome → List Char
  | .ok => []
  | .timeout => "Text pasting timed out".data
  | .not_found => "xdotool not installed. Install with: sudo pacman -S xdotool".data
  | .failed => "xdotool failed".data
  | .other => "Text injection error".data

/-- Sample offset of chunk `i` inside the concatenated recording: the sum
of the sample counts of the chunks that arrived before it. -/
def chunk_offset (chunks : List (List Int)) (i : Nat) : Nat :=
  ((chunks.take i).map List.length).sum

/-! ## Concrete instances for witnesses and counterexamples -/

/-- Default-flavoured configuration (strip spaces on, auto-capitalize off,
retention off, notifications on). -/
def cfg0 : Config :=
  { strip_leading := true, strip_trailing := true, auto_capitalize := false,
    clear_modifiers := true, keep_temp := false, show_transcription := true,
    enable_notifications := true }

/-- `strip_spaces` off, `auto_capitalize` on. -/
def cfgX : Config :=
  { cfg0 with strip_leading := false, strip_trailing := false, auto_capitalize := true }

def path0 : List Char := "/tmp/dictation/recording-7-1000.wav".data

def d0 : LockData :=
  { pid := some 7, started_at := some 1000, audio_file := some path0,
    device := some "mic".data, sample_rate := some 16000, channels := some 1 }

/-- Owner of pid 7 alive for the first three liveness observations, then
dead; xdotool and both clipboard tools fail. -/
def env0 : Env :=
  { alive_at := fun i _ => decide (i < 3), device_ok := true,
    device_name := "mic".data, mkdir_ok := true, lock_write_ok := true,
    self_pid := 42, now := 2000, record_outcome := .signaled [[1, 2], [3]] true,
    whisper_available := true, engine := some ["hello".data, "world".data],
    xdotool := .failed, xclip_ok := false, xsel_ok := false, cfg := cfg0 }

/-- Every pid always alive. -/
def envAlive : Env := { env0 with alive_at := fun _ _ => true }

/-- Every pid always dead, and the audio device unavailable (so that a
delegated `start_recording` would fail). -/
def envDead : Env := { env0 with alive_at := fun _ _ => false, device_ok := false }

/-- Whitespace-only transcription. -/
def envWs : Env := { env0 with engine := some [" ".data] }

def st0 : St :=
  { lock := some (.parsed d0), audio_files := [path0], probe_idx := 0, events := [] }

def stNone : St := { st0 with lock := none }

def stCorrupt : St := { st0 with lock := some .corrupt }

/-! ## Basic state lemmas -/

@[simp]
theorem emit_lock (e : Event) (s : St) : (emit e s).lock = s.lock := rfl

@[simp]
theorem emit_probe_idx (e : Event) (s : St) : (emit e s).probe_idx = s.probe_idx := rfl

@[simp]
theorem emit_audio_files (e : Event) (s : St) : (emit e s).audio_files = s.audio_files := rfl

@[simp]
theorem emit_events (e : Event) (s : St) : (emit e s).events = s.events ++ [e] := rfl

@[simp]
theorem notify_lock (cfg : Config) (t m : List Char) (s : St) :
    (notify cfg t m s).lock = s.lock := by
  unfold notify; split <;> rfl

@[simp]
theorem notify_probe_idx (cfg : Config) (t m : List Char) (s : St) :
    (notify cfg t m s).probe_idx = s.probe_idx := by
  unfold notify; split <;> rfl

@[simp]
theorem notify_audio_files (cfg : Config) (t m : List Char) (s : St) :
    (notify cfg t m s).audio_files = s.audio_files := by
  unfold notify; split <;> rfl

theorem notify_events_on (cfg : Config) (t m : List Char) (s : St)
    (h : cfg.enable_notifications = true) :
    (notify cfg t m s).events = s.events ++ [Event.note t m] := by
  unfold notify; rw [h]; rfl

@[simp]
theorem unlink_lock_file_lock (s : St) : (unlink_lock_file s).lock = none := rfl

@[simp]
theorem unlink_lock_file_events (s : St) :
    (unlink_lock_file s).events = s.events ++ [Event.unlink_lock] := rfl

theorem mem_notify_events {e : Event} (cfg : Config) (t m : List Char) (s : St)
    (h : e ∈ s.events) : e ∈ (notify cfg t m s).events := by
  unfold notify
  split
  · simp only [emit_events, List.mem_append]
    exact Or.inl h
  · exact h

@[simp]
theorem lock_after_conditional_unlink (s : St) :
    (if s.lock.isSome then unlink_lock_file s else s).lock = none := by
  cases hl : s.lock <;> simp [hl]

/-! ## C4: reading an unparseable marker -/

/-- **C4 counterexample.** On a marker whose contents fail to parse,
`read_lock_file` returns "absent" but the unparseable marker file is still
present afterwards: the claimed best-effort deletion does not happen. -/
theorem read_lock_file_corrupt_counterexample :
    (read_lock_file stCorrupt).1 = none ∧
    (read_lock_file stCorrupt).2.lock = some .corrupt :=
  ⟨rfl, rfl⟩

/-- **C4 (amended).** For every marker read applied to an existing marker
file whose contents fail to parse, `read_lock_file` returns "absent"
(`None`) and leaves the world unchanged: in particular the unparseable
marker file is not deleted by `read_lock_file` (stale-marker deletion
happens in `start_recording`'s preflight instead). -/
theorem read_lock_file_corrupt_keeps_marker (s : St) (h : s.lock = some .corrupt) :
    read_lock_file s = (none, s) := by
  simp [read_lock_file, h]

theorem read_lock_file_corrupt_keeps_marker_witness :
    stCorrupt.lock = some .corrupt ∧ read_lock_file stCorrupt = (none, stCorrupt) :=
  ⟨rfl, read_lock_file_corrupt_keeps_marker stCorrupt rfl⟩

/-! ## C5: the shutdown path always deletes the marker -/

/-- **C5.** For every execution of the recorder's signal-handler shutdown
path, whatever the buffered chunks and whether or not the WAV write
succeeds, the session marker is gone when the process exits, and the exit
status is 0 exactly when the flush succeeded (non-empty buffer and
successful write). -/
theorem signal_handler_clears_marker (cfg : Config) (wav_ok : Bool)
    (chunks : List (List Int)) (path : List Char) (s : St) :
    (signal_handler cfg wav_ok chunks path s).2.lock = none ∧
    ((signal_handler cfg wav_ok chunks path s).1 = 0 ↔ chunks ≠ [] ∧ wav_ok = true) := by
  unfold signal_handler save_audio_data
  by_cases hc : chunks.isEmpty
  · have hce : chunks = [] := List.isEmpty_iff.mp hc
    subst hce
    simp
  · have hne : chunks ≠ [] := fun h => hc (by simp [h])
    cases wav_ok with
    | true => cases hl : s.lock <;> simp [hc, hne, hl]
    | false => cases hl : s.lock <;> simp [hc, hl]

/-! ## C2: stopping an already-stopped session -/

/-- **C2 counterexample.** Invoking stop with no session marker present
returns exit status 1, not the claimed no-op success 0. -/
theorem stop_recording_idle_counterexample :
    (stop_recording envDead stNone).1 = 1 := rfl

/-- **C2 (amended).** For every invocation of the stop operation when no
session marker exists or the marker's owner process is already dead, the
operation reports an error (non-zero exit status 1) — not the no-op success
the spec describes — and any stale marker is deleted (the final state has
no marker; when a marker was present its deletion is recorded). -/
theorem stop_recording_already_stopped (env : Env) (s : St)
    (h : s.lock = none ∨
         ∃ d q, s.lock = some (.parsed d) ∧ d.pid = some (q + 1) ∧
                env.alive_at s.probe_idx (q + 1) = false) :
    (stop_recording env s).1 = 1 ∧ (stop_recording env s).2.lock = none ∧
    (s.lock.isSome → Event.unlink_lock ∈ (stop_recording env s).2.events) := by
  rcases h with h | ⟨d, q, hl, hp, hdead⟩
  · refine ⟨?_, ?_, ?_⟩ <;> simp [stop_recording, h]
  · have hrun : stop_recording env s = (1, unlink_lock_file { s with probe_idx := s.probe_idx + 1 }) := by
      simp [stop_recording, hl, hp, probe, hdead]
    rw [hrun]
    refine ⟨rfl, rfl, fun _ => ?_⟩
    simp

theorem stop_recording_already_stopped_witness :
    (st0.lock = some (.parsed d0) ∧ d0.pid = some (6 + 1) ∧
      envDead.alive_at st0.probe_idx (6 + 1) = false) ∧
    ((stop_recording envDead st0).1 = 1 ∧ (stop_recording envDead st0).2.lock = none ∧
      (st0.lock.isSome → Event.unlink_lock ∈ (stop_recording envDead st0).2.events)) :=
  ⟨⟨rfl, rfl, rfl⟩,
    stop_recording_already_stopped envDead st0 (Or.inr ⟨d0, 6, rfl, rfl, rfl⟩)⟩

/-! ## C1: mutual exclusion on start -/

/-- **C1.** Starting a session while the marker exists, parses, and names a
live owner pid fails with exit status 1 and leaves the marker file exactly
as it was: the final marker equals the initial one, and the run performs no
marker write and no marker deletion (the only new event is the user-facing
error notification, if notifications are enabled). -/
theorem start_recording_mutual_exclusion (env : Env) (s : St) (d : LockData) (q : Nat)
    (hl : s.lock = some (.parsed d)) (hp : d.pid = some (q + 1))
    (ha : env.alive_at s.probe_idx (q + 1) = true) :
    (start_recording env s).1 = 1 ∧ (start_recording env s).2.lock = s.lock ∧
    ∃ new, (start_recording env s).2.events = s.events ++ new ∧
      ∀ e ∈ new, (∀ d2, e ≠ Event.write_lock d2) ∧ e ≠ Event.unlink_lock := by
  have hrun : start_recording env s =
      (1, notify env.cfg "Dictation Error".data "Recording already in progress".data
            { s with probe_idx := s.probe_idx + 1 }) := by
    simp [start_recording, hl, hp, probe, ha]
  rw [hrun]
  refine ⟨rfl, by simp [hl], ?_⟩
  by_cases hN : env.cfg.enable_notifications
  · refine ⟨[Event.note "Dictation Error".data "Recording already in progress".data],
      ?_, ?_⟩
    · rw [notify_events_on _ _ _ _ hN]
    · intro e he
      simp only [List.mem_singleton] at he
      subst he
      exact ⟨fun d2 => by simp, by simp⟩
  · refine ⟨[], ?_, by simp⟩
    unfold notify
    rw [if_neg hN]
    simp

theorem start_recording_mutual_exclusion_witness :
    (st0.lock = some (.parsed d0) ∧ d0.pid = some (6 + 1) ∧
      envAlive.alive_at st0.probe_idx (6 + 1) = true) ∧
    ((start_recording envAlive st0).1 = 1 ∧
      (start_recording envAlive st0).2.lock = st0.lock ∧
      ∃ new, (start_recording envAlive st0).2.events = st0.events ++ new ∧
        ∀ e ∈ new, (∀ d2, e ≠ Event.write_lock d2) ∧ e ≠ Event.unlink_lock) :=
  ⟨⟨rfl, rfl, rfl⟩, start_recording_mutual_exclusion envAlive st0 d0 6 rfl rfl rfl⟩

/-! ## C3: toggle on a stale marker -/

/-- **C3 counterexample.** With a stale marker and an environment in which
starting a session would fail (no audio device), the toggle returns 0
while a delegated start on the cleaned-up state would return 1: the toggle
does not delegate to starting a new recorder session and does not return
the start operation's result. -/
theorem handle_toggle_stale_counterexample :
    (handle_toggle envDead st0).1 = 0 ∧
    (start_recording envDead (cleanup_stale_lock st0)).1 = 1 :=
  ⟨rfl, rfl⟩

/-- **C3 (amended).** A toggle that finds a marker whose owner pid is not a
live process deletes the marker and emits a "cleaning up stale session"
notification, and then returns success (0) immediately — it does not start
a new recorder session: the final state is exactly the input state with the
marker cleared, one liveness probe consumed, and only the notification and
the marker deletion appended to the trace. -/
theorem handle_toggle_stale_marker (env : Env) (s : St) (d : LockData) (q : Nat)
    (hl : s.lock = some (.parsed d)) (hp : d.pid = some (q + 1))
    (hdead : env.alive_at s.probe_idx (q + 1) = false)
    (hn : env.cfg.enable_notifications = true) :
    handle_toggle env s =
      (0, { s with lock := none, probe_idx := s.probe_idx + 1,
                   events := s.events ++
                     [Event.note "🔧 Dictation".data
                        "Cleaning up stale recording session...".data,
                      Event.unlink_lock] }) := by
  simp [handle_toggle, read_lock_file, hl, hp, probe, hdead, cleanup_stale_lock,
    notify, hn, emit, unlink_lock_file]

theorem handle_toggle_stale_marker_witness :
    (st0.lock = some (.parsed d0) ∧ d0.pid = some (6 + 1) ∧
      envDead.alive_at st0.probe_idx (6 + 1) = false ∧
      envDead.cfg.enable_notifications = true) ∧
    handle_toggle envDead st0 =
      (0, { st0 with lock := none, probe_idx := st0.probe_idx + 1,
                     events := st0.events ++
                       [Event.note "🔧 Dictation".data
                          "Cleaning up stale recording session...".data,
                        Event.unlink_lock] }) :=
  ⟨⟨rfl, rfl, rfl, rfl⟩, handle_toggle_stale_marker envDead st0 d0 6 rfl rfl rfl rfl⟩

/-! ## C6: no data loss on flush -/

theorem flatten_segment {α : Type} (L : List (List α)) :
    ∀ i (h : i < L.length),
      ((L.flatten.drop (((L.take i).map List.length).sum)).take (L.get ⟨i, h⟩).length)
        = L.get ⟨i, h⟩ := by
  induction L with
  | nil => intro i h; exact absurd h (by simp)
  | cons x L ih =>
      intro i h
      cases i with
      | zero =>
          simp only [List.take_zero, List.map_nil, List.sum_nil, List.drop_zero,
            List.flatten_cons, List.get]
          exact List.take_left x L.flatten
      | succ j =>
          have hj : j < L.length := by simpa using h
          simp only [List.take_succ_cons, List.map_cons, List.sum_cons,
            List.flatten_cons, List.get]
          rw [← List.drop_drop, List.drop_left]
          exact ih j hj

/-- **C6.** For every non-empty buffer of captured frame chunks, a
successful flush writes a WAV file whose sample sequence has total length
equal to the sum of the chunks' lengths, and in which chunk `i` occupies
the contiguous segment starting at the sum of the lengths of the chunks
that arrived before it — i.e. all samples, in original arrival order. -/
theorem save_audio_no_data_loss (cfg : Config) (chunks : List (List Int))
    (path : List Char) (s : St) (hne : chunks ≠ []) :
    ∃ samples,
      (save_audio_data cfg true chunks path s).1 = true ∧
      Event.write_wav path samples ∈ (save_audio_data cfg true chunks path s).2.events ∧
      samples.length = (chunks.map List.length).sum ∧
      ∀ i (h : i < chunks.length),
        (samples.drop (chunk_offset chunks i)).take (chunks.get ⟨i, h⟩).length
          = chunks.get ⟨i, h⟩ := by
  refine ⟨chunks.flatten, ?_, ?_, ?_, ?_⟩
  · simp [save_audio_data, hne]
  · have hc : chunks.isEmpty = false := by simp [hne]
    unfold save_audio_data
    rw [hc]
    simp only [Bool.false_eq_true, if_false, if_true]
    exact mem_notify_events _ _ _ _ (by simp)
  · exact List.length_flatten chunks
  · intro i h
    exact flatten_segment chunks i h

theorem save_audio_no_data_loss_witness :
    ([[1, 2], [3]] : List (List Int)) ≠ [] ∧
    ∃ samples,
      (save_audio_data cfg0 true [[1, 2], [3]] path0 st0).1 = true ∧
      Event.write_wav path0 samples ∈
        (save_audio_data cfg0 true [[1, 2], [3]] path0 st0).2.events ∧
      samples.length = (([[1, 2], [3]] : List (List Int)).map List.length).sum ∧
      ∀ i (h : i < ([[1, 2], [3]] : List (List Int)).length),
        (samples.drop (chunk_offset [[1, 2], [3]] i)).take
            (([[1, 2], [3]] : List (List Int)).get ⟨i, h⟩).length
          = ([[1, 2], [3]] : List (List Int)).get ⟨i, h⟩ :=
  ⟨by decide, save_audio_no_data_loss cfg0 [[1, 2], [3]] path0 st0 (by decide)⟩

/-! ## C7: the stop protocol on a live owner -/

theorem stop_wait_loop_dead_now (env : Env) (p n : Nat) (s : St) (hn : n ≠ 0)
    (h : env.alive_at s.probe_idx p = false) :
    stop_wait_loop env p n s = (some 0, { s with probe_idx := s.probe_idx + 1 }) := by
  cases n with
  | zero => exact absurd rfl hn
  | succ m => simp [stop_wait_loop, probe, h]

theorem stop_wait_loop_all_alive (env : Env) (p : Nat) :
    ∀ n (s : St), (∀ j, j < n → env.alive_at (s.probe_idx + j) p = true) →
      stop_wait_loop env p n s = (none, { s with probe_idx := s.probe_idx + n }) := by
  intro n
  induction n with
  | zero => intro s _; rfl
  | succ m ih =>
      intro s h
      have h0 : env.alive_at s.probe_idx p = true := by
        simpa using h 0 (Nat.succ_pos m)
      have hrest : ∀ j, j < m →
          env.alive_at (({ s with probe_idx := s.probe_idx + 1 } : St).probe_idx + j) p = true := by
        intro j hj
        have := h (j + 1) (by omega)
        simpa [Nat.add_assoc, Nat.add_comm 1 j] using this
      simp only [stop_wait_loop, probe, h0, Bool.not_true, Bool.false_eq_true, if_false]
      rw [ih _ hrest]
      have : s.probe_idx + 1 + m = s.probe_idx + (m + 1) := by omega
      simp [this]

theorem stop_wait_loop_first_dead (env : Env) (p : Nat) :
    ∀ n j (s : St), j < n →
      (∀ k, k < j → env.alive_at (s.probe_idx + k) p = true) →
      env.alive_at (s.probe_idx + j) p = false →
      stop_wait_loop env p n s = (some 0, { s with probe_idx := s.probe_idx + j + 1 }) := by
  intro n
  induction n with
  | zero => intro j s hj; omega
  | succ m ih =>
      intro j s hj halive hdead
      cases j with
      | zero =>
          have hd : env.alive_at s.probe_idx p = false := by simpa using hdead
          simp [stop_wait_loop, probe, hd]
      | succ k =>
          have h0 : env.alive_at s.probe_idx p = true := by
            simpa using halive 0 (Nat.succ_pos k)
          have hal : ∀ k2, k2 < k →
              env.alive_at (({ s with probe_idx := s.probe_idx + 1 } : St).probe_idx + k2) p
                = true := by
            intro k2 hk2
            have := halive (k2 + 1) (by omega)
            simpa [Nat.add_assoc, Nat.add_comm 1 k2] using this
          have hd : env.alive_at
              (({ s with probe_idx := s.probe_idx + 1 } : St).probe_idx + k) p = false := by
            have h1 : s.probe_idx + 1 + k = s.probe_idx + (k + 1) := by omega
            simpa [h1] using hdead
          simp only [stop_wait_loop, probe, h0, Bool.not_true, Bool.false_eq_true, if_false]
          rw [ih k _ (by omega) hal hd]
          have : s.probe_idx + 1 + k + 1 = s.probe_idx + (k + 1) + 1 := by omega
          simp [this]

/-- **C7.** Stopping a session whose marker names a live owner sends the
graceful termination signal (SIGTERM), then polls owner liveness at 0.1 s
intervals up to the 5-second budget (50 polls, plus the boundary check that
decides escalation and the forced-kill delivery itself: liveness
observations 1-53 after the entry check at observation 0).  The exit status
is 0 exactly when some observation within that budget sees the owner dead;
if the owner stays alive through all of them, the coordinator escalates to
a forced termination (SIGKILL), waits the short grace period, and reports
failure (exit status 1). -/
theorem stop_recording_live_owner_protocol (env : Env) (s : St) (d : LockData) (q : Nat)
    (hl : s.lock = some (.parsed d)) (hp : d.pid = some (q + 1))
    (ha : env.alive_at s.probe_idx (q + 1) = true) :
    Event.sigterm (q + 1) ∈ (stop_recording env s).2.events ∧
    ((stop_recording env s).1 = 0 ↔
      ∃ j, 1 ≤ j ∧ j ≤ 53 ∧ env.alive_at (s.probe_idx + j) (q + 1) = false) ∧
    ((∀ j, j ≤ 53 → env.alive_at (s.probe_idx + j) (q + 1) = true) →
      (stop_recording env s).1 = 1 ∧
        Event.sigkill (q + 1) ∈ (stop_recording env s).2.events) := by
  by_cases h1 : env.alive_at (s.probe_idx + 1) (q + 1) = true
  case neg =>
    have h1f : env.alive_at (s.probe_idx + 1) (q + 1) = false := Bool.eq_false_iff.mpr h1
    have hrun : (stop_recording env s).1 = 0 ∧
        (stop_recording env s).2.events = s.events ++ [Event.sigterm (q + 1), Event.unlink_lock] := by
      simp [stop_recording, hl, hp, probe, ha, h1f, unlink_lock_file]
    refine ⟨?_, ?_, ?_⟩
    · rw [hrun.2]; simp
    · rw [hrun.1]
      simp only [true_iff]
      exact ⟨1, by omega, by omega, h1f⟩
    · intro hcon
      have := hcon 1 (by omega)
      rw [h1f] at this
      exact absurd this (by simp)
  case pos =>
    by_cases hex : ∃ k, k < 50 ∧ env.alive_at (s.probe_idx + 2 + k) (q + 1) = false
    · -- a poll inside the 5-second loop sees the owner dead
      have hk50 : Nat.find hex < 50 := (Nat.find_spec hex).1
      have hkdead : env.alive_at (s.probe_idx + 2 + Nat.find hex) (q + 1) = false :=
        (Nat.find_spec hex).2
      have hmin : ∀ m, m < Nat.find hex →
          env.alive_at (s.probe_idx + 2 + m) (q + 1) = true := by
        intro m hm
        by_contra hc
        exact Nat.find_min hex hm ⟨by omega, Bool.eq_false_iff.mpr hc⟩
      have hrun : (stop_recording env s).1 = 0 ∧
          (stop_recording env s).2.events = s.events ++ [Event.sigterm (q + 1)] := by
        simp only [stop_recording, hl, hp, probe, emit_probe_idx, emit_events, emit_lock,
          emit_audio_files, ha, h1, Bool.not_true, Bool.not_false, Bool.false_eq_true,
          if_false, if_true]
        rw [stop_wait_loop_first_dead env (q + 1) 50 (Nat.find hex) _ hk50 ?hal ?hdead]
        case hal =>
          intro k hk
          show env.alive_at (s.probe_idx + 1 + 1 + k) (q + 1) = true
          rw [show s.probe_idx + 1 + 1 + k = s.probe_idx + 2 + k by omega]
          exact hmin k hk
        case hdead =>
          show env.alive_at (s.probe_idx + 1 + 1 + Nat.find hex) (q + 1) = false
          rw [show s.probe_idx + 1 + 1 + Nat.find hex = s.probe_idx + 2 + Nat.find hex by omega]
          exact hkdead
        simp
      refine ⟨?_, ?_, ?_⟩
      · rw [hrun.2]; simp
      · rw [hrun.1]
        simp only [true_iff]
        refine ⟨Nat.find hex + 2, by omega, by omega, ?_⟩
        rw [show s.probe_idx + (Nat.find hex + 2) = s.probe_idx + 2 + Nat.find hex by omega]
        exact hkdead
      · intro hcon
        have := hcon (Nat.find hex + 2) (by omega)
        rw [show s.probe_idx + (Nat.find hex + 2) = s.probe_idx + 2 + Nat.find hex by omega]
          at this
        rw [hkdead] at this
        exact absurd this (by simp)
    · -- all 50 polls see the owner alive
      have hnall : ∀ k, k < 50 → env.alive_at (s.probe_idx + 2 + k) (q + 1) = true := by
        intro k hk
        by_contra hc
        exact hex ⟨k, hk, Bool.eq_false_iff.mpr hc⟩
      by_cases h3 : env.alive_at (s.probe_idx + 52) (q + 1) = true
      case neg =>
        have h3f : env.alive_at (s.probe_idx + 52) (q + 1) = false := Bool.eq_false_iff.mpr h3
        have hrun : (stop_recording env s).1 = 0 ∧
            (stop_recording env s).2.events = s.events ++ [Event.sigterm (q + 1)] := by
          simp only [stop_recording, hl, hp, probe, emit_probe_idx, emit_events, emit_lock,
            emit_audio_files, ha, h1, Bool.not_true, Bool.not_false, Bool.false_eq_true,
            if_false, if_true]
          rw [stop_wait_loop_all_alive env (q + 1) 50 _ ?hall]
          case hall =>
            intro k hk
            show env.alive_at (s.probe_idx + 1 + 1 + k) (q + 1) = true
            rw [show s.probe_idx + 1 + 1 + k = s.probe_idx + 2 + k by omega]
            exact hnall k hk
          rw [show s.probe_idx + 1 + 1 + 50 = s.probe_idx + 52 by omega]
          simp [h3f]
        refine ⟨?_, ?_, ?_⟩
        · rw [hrun.2]; simp
        · rw [hrun.1]
          simp only [true_iff]
          exact ⟨52, by omega, by omega, h3f⟩
        · intro hcon
          have := hcon 52 (by omega)
          rw [h3f] at this
          exact absurd this (by simp)
      case pos =>
        by_cases h4 : env.alive_at (s.probe_idx + 53) (q + 1) = true
        case neg =>
          have h4f : env.alive_at (s.probe_idx + 53) (q + 1) = false := Bool.eq_false_iff.mpr h4
          have hrun : (stop_recording env s).1 = 0 ∧
              (stop_recording env s).2.events =
                s.events ++ [Event.sigterm (q + 1), Event.sigkill (q + 1), Event.unlink_lock] := by
            simp only [stop_recording, hl, hp, probe, emit_probe_idx, emit_events, emit_lock,
              emit_audio_files, ha, h1, Bool.not_true, Bool.not_false, Bool.false_eq_true,
              if_false, if_true]
            rw [stop_wait_loop_all_alive env (q + 1) 50 _ ?hall]
            case hall =>
              intro k hk
              show env.alive_at (s.probe_idx + 1 + 1 + k) (q + 1) = true
              rw [show s.probe_idx + 1 + 1 + k = s.probe_idx + 2 + k by omega]
              exact hnall k hk
            rw [show s.probe_idx + 1 + 1 + 50 = s.probe_idx + 52 by omega]
            simp only [h3, Bool.not_true, Bool.false_eq_true, if_false, if_true]
            rw [show s.probe_idx + 52 + 1 = s.probe_idx + 53 by omega]
            simp [h4f, unlink_lock_file]
          refine ⟨?_, ?_, ?_⟩
          · rw [hrun.2]; simp
          · rw [hrun.1]
            simp only [true_iff]
            exact ⟨53, by omega, by omega, h4f⟩
          · intro hcon
            have := hcon 53 (by omega)
            rw [h4f] at this
            exact absurd this (by simp)
        case pos =>
          have hrun : (stop_recording env s).1 = 1 ∧
              (stop_recording env s).2.events =
                s.events ++ [Event.sigterm (q + 1), Event.sigkill (q + 1), Event.unlink_lock] := by
            simp only [stop_recording, hl, hp, probe, emit_probe_idx, emit_events, emit_lock,
              emit_audio_files, ha, h1, Bool.not_true, Bool.not_false, Bool.false_eq_true,
              if_false, if_true]
            rw [stop_wait_loop_all_alive env (q + 1) 50 _ ?hall]
            case hall =>
              intro k hk
              show env.alive_at (s.probe_idx + 1 + 1 + k) (q + 1) = true
              rw [show s.probe_idx + 1 + 1 + k = s.probe_idx + 2 + k by omega]
              exact hnall k hk
            rw [show s.probe_idx + 1 + 1 + 50 = s.probe_idx + 52 by omega]
            simp only [h3, Bool.not_true, Bool.false_eq_true, if_false, if_true]
            rw [show s.probe_idx + 52 + 1 = s.probe_idx + 53 by omega]
            simp [h4, unlink_lock_file]
          refine ⟨?_, ?_, ?_⟩
          · rw [hrun.2]; simp
          · rw [hrun.1]
            constructor
            · intro h10; exact absurd h10 (by simp)
            · rintro ⟨j, hj1, hj53, hdead⟩
              have halive : env.alive_at (s.probe_idx + j) (q + 1) = true := by
                rcases Nat.lt_or_ge j 2 with hj | hj
                · rw [show j = 1 by omega]; exact h1
                · rcases Nat.lt_or_ge j 52 with hj2 | hj2
                  · have hk := hnall (j - 2) (by omega)
                    rwa [show s.probe_idx + 2 + (j - 2) = s.probe_idx + j by omega] at hk
                  · rcases Nat.lt_or_ge j 53 with hj3 | hj3
                    · rw [show j = 52 by omega]; exact h3
                    · rw [show j = 53 by omega]; exact h4
              rw [halive] at hdead
              exact absurd hdead (by simp)
          · intro _
            exact ⟨hrun.1, by rw [hrun.2]; simp⟩

theorem stop_recording_live_owner_protocol_witness :
    (st0.lock = some (.parsed d0) ∧ d0.pid = some (6 + 1) ∧
      env0.alive_at st0.probe_idx (6 + 1) = true) ∧
    (Event.sigterm (6 + 1) ∈ (stop_recording env0 st0).2.events ∧
      ((stop_recording env0 st0).1 = 0 ↔
        ∃ j, 1 ≤ j ∧ j ≤ 53 ∧ env0.alive_at (st0.probe_idx + j) (6 + 1) = false) ∧
      ((∀ j, j ≤ 53 → env0.alive_at (st0.probe_idx + j) (6 + 1) = true) →
        (stop_recording env0 st0).1 = 1 ∧
          Event.sigkill (6 + 1) ∈ (stop_recording env0 st0).2.events)) :=
  ⟨⟨rfl, rfl, rfl⟩, stop_recording_live_owner_protocol env0 st0 d0 6 rfl rfl rfl⟩

/-! ## C9: the empty-speech path (and the toggle-run lemmas it needs) -/

theorem stop_recording_dead_at_third (env : Env) (s : St) (d : LockData) (q : Nat)
    (hl : s.lock = some (.parsed d)) (hp : d.pid = some (q + 1))
    (h0 : env.alive_at s.probe_idx (q + 1) = true)
    (h1 : env.alive_at (s.probe_idx + 1) (q + 1) = true)
    (h2 : env.alive_at (s.probe_idx + 2) (q + 1) = false) :
    stop_recording env s =
      (0, { s with probe_idx := s.probe_idx + 3,
                   events := s.events ++ [Event.sigterm (q + 1)] }) := by
  simp only [stop_recording, hl, hp, probe, emit_probe_idx, emit_events, emit_lock,
    emit_audio_files, h0, h1, Bool.not_true, Bool.not_false, Bool.false_eq_true,
    if_false, if_true]
  rw [stop_wait_loop_dead_now env (q + 1) 50 _ (by omega) ?hd]
  case hd =>
    show env.alive_at (s.probe_idx + 1 + 1) (q + 1) = false
    rwa [show s.probe_idx + 1 + 1 = s.probe_idx + 2 by omega]

theorem handle_toggle_to_transcribe (env : Env) (s : St) (d : LockData) (q : Nat)
    (path : List Char)
    (hpi : s.probe_idx = 0) (hev : s.events = [])
    (hl : s.lock = some (.parsed d)) (hp : d.pid = some (q + 1))
    (haf : d.audio_file = some path) (hpne : path.isEmpty = false)
    (hfiles : s.audio_files.contains path = true)
    (h0 : env.alive_at 0 (q + 1) = true) (h1 : env.alive_at 1 (q + 1) = true)
    (h2 : env.alive_at 2 (q + 1) = true) (h3 : env.alive_at 3 (q + 1) = false) :
    handle_toggle env s =
      toggle_transcribe env path
        { s with probe_idx := 4, events := [Event.sigterm (q + 1)] } := by
  have hpr : env.alive_at s.probe_idx (q + 1) = true := by rw [hpi]; exact h0
  simp only [handle_toggle, read_lock_file, hl, hp, probe, hpr, Bool.not_true,
    Bool.false_eq_true, if_false, toggle_stop]
  rw [stop_recording_dead_at_third env _ d q (by simp [hl]) hp ?s0 ?s1 ?s2]
  case s0 =>
    show env.alive_at (s.probe_idx + 1) (q + 1) = true
    rw [hpi]; exact h1
  case s1 =>
    show env.alive_at (s.probe_idx + 1 + 1) (q + 1) = true
    rw [hpi]; exact h2
  case s2 =>
    show env.alive_at (s.probe_idx + 1 + 2) (q + 1) = false
    rw [hpi]; exact h3
  have hmem : path ∈ s.audio_files := by simpa using hfiles
  simp [haf, hpne, hev, hpi, hmem, show 0 + 1 + 3 = 4 by omega]




theorem transcribe_audio_success (env : Env) (path : List Char) (s : St)
    (segs : List (List Char))
    (hwh : env.whisper_available = true)
    (hcont : s.audio_files.contains path = true)
    (heng : env.engine = some segs)
    (hn : env.cfg.enable_notifications = true) :
    transcribe_audio env path s =
      (some (process_text env.cfg (join_space segs)),
        { s with events := s.events ++
            [Event.note "⏳ Transcribing...".data "Processing your audio".data,
             Event.note "✅ Transcription Complete".data
               (if env.cfg.show_transcription then
                  preview_of (process_text env.cfg (join_space segs))
                else "Processing your audio".data)] }) := by
  have hmem : path ∈ s.audio_files := by simpa using hcont
  cases hshow : env.cfg.show_transcription <;>
    simp [transcribe_audio, hwh, hmem, heng, hn, hshow, notify, emit]

theorem py_strip_of_all_ws (l : List Char)
    (h : ∀ c ∈ l, c.isWhitespace = true) : py_strip l = [] := by
  have : lstrip l = [] := by
    unfold lstrip
    induction l with
    | nil => rfl
    | cons c cs ih =>
        rw [List.dropWhile_cons, if_pos (h c (by simp))]
        exact ih (fun c2 hc2 => h c2 (by simp [hc2]))
  rw [py_strip, this]
  rfl

/-- **C9.** In the toggle stop path, when the transcription output is empty
or consists only of whitespace, the coordinator makes no delivery attempt
(no text injection, no clipboard copy), performs cleanup (the marker is
cleared; the audio file is deleted unless retention is configured), and
returns the non-error exit status 0. -/
theorem handle_toggle_empty_speech (env : Env) (s : St) (d : LockData) (q : Nat)
    (path : List Char) (segs : List (List Char))
    (hpi : s.probe_idx = 0) (hev : s.events = [])
    (hl : s.lock = some (.parsed d)) (hp : d.pid = some (q + 1))
    (haf : d.audio_file = some path) (hpne : path.isEmpty = false)
    (hfiles : s.audio_files.contains path = true)
    (h0 : env.alive_at 0 (q + 1) = true) (h1 : env.alive_at 1 (q + 1) = true)
    (h2 : env.alive_at 2 (q + 1) = true) (h3 : env.alive_at 3 (q + 1) = false)
    (hwh : env.whisper_available = true) (heng : env.engine = some segs)
    (hn : env.cfg.enable_notifications = true)
    (hws : ∀ c ∈ process_text env.cfg (join_space segs), c.isWhitespace = true) :
    (handle_toggle env s).1 = 0 ∧
    (handle_toggle env s).2.lock = none ∧
    (env.cfg.keep_temp = false →
      Event.unlink_audio path ∈ (handle_toggle env s).2.events ∧
      (handle_toggle env s).2.audio_files = s.audio_files.erase path) ∧
    (∀ t, Event.type_text t ∉ (handle_toggle env s).2.events) ∧
    (∀ t, Event.clip_copy t ∉ (handle_toggle env s).2.events) := by
  have hstrip : (py_strip (process_text env.cfg (join_space segs))).isEmpty = true := by
    rw [py_strip_of_all_ws _ hws]; rfl
  have hmem : path ∈ s.audio_files := by simpa using hfiles
  rw [handle_toggle_to_transcribe env s d q path hpi hev hl hp haf hpne hfiles h0 h1 h2 h3]
  simp only [toggle_transcribe, notify, hn, if_true, emit]
  rw [transcribe_audio_success env path _ segs hwh (by simpa using hfiles) heng hn]
  simp only [hstrip, Bool.or_true, if_true, toggle_cleanup, cleanup_stale_lock,
    unlink_lock_file]
  cases hkt : env.cfg.keep_temp <;>
    simp [hkt, hl, hmem, notify, hn, emit]

/-! ## C8: the delivery fallback ladder -/

theorem toggle_deliver_bothfail (env : Env) (text : List Char) (s : St)
    (htne : text.isEmpty = false) (hxdo : env.xdotool ≠ .ok)
    (hxclip : env.xclip_ok = false) (hxsel : env.xsel_ok = false)
    (hn : env.cfg.enable_notifications = true) :
    toggle_deliver env text s =
      { s with events := s.events ++
          [Event.note "📝 Dictation".data
             ("Pasting ".data ++ (Nat.repr (py_split text).length).data
               ++ " words...".data),
           Event.type_text text,
           Event.note "❌ Dictation Error".data (xdo_fail_msg env.xdotool),
           Event.clip_copy text,
           Event.note "⚠️ Dictation".data
             ("Could not paste or copy to clipboard.\nText: ".data
               ++ preview_of text)] } := by
  cases hx : env.xdotool
  case ok => exact absurd hx hxdo
  all_goals
    simp [toggle_deliver, paste_text_xdotool, copy_to_clipboard, htne, hx,
      hxclip, hxsel, notify, hn, emit, xdo_fail_msg]

/-- **C8 (amended).** In the toggle stop path with non-empty transcribed
text, when the primary delivery (xdotool injection) fails, the primary
failure itself emits an error notification first, and then the secondary
clipboard delivery is attempted before the delivery outcome is reported;
when the clipboard attempt also fails, the outcome report that immediately
follows the attempt is a notification carrying a truncated preview of the
transcribed text, so the text is never lost silently, and the toggle still
exits 0. -/
theorem delivery_fallback_ladder (env : Env) (s : St) (d : LockData) (q : Nat)
    (path : List Char) (segs : List (List Char))
    (hpi : s.probe_idx = 0) (hev : s.events = [])
    (hl : s.lock = some (.parsed d)) (hp : d.pid = some (q + 1))
    (haf : d.audio_file = some path) (hpne : path.isEmpty = false)
    (hfiles : s.audio_files.contains path = true)
    (h0 : env.alive_at 0 (q + 1) = true) (h1 : env.alive_at 1 (q + 1) = true)
    (h2 : env.alive_at 2 (q + 1) = true) (h3 : env.alive_at 3 (q + 1) = false)
    (hwh : env.whisper_available = true) (heng : env.engine = some segs)
    (hn : env.cfg.enable_notifications = true)
    (hne : (py_strip (process_text env.cfg (join_space segs))).isEmpty = false)
    (hxdo : env.xdotool ≠ .ok) (hxclip : env.xclip_ok = false)
    (hxsel : env.xsel_ok = false) :
    (handle_toggle env s).1 = 0 ∧
    Event.clip_copy (process_text env.cfg (join_space segs)) ∈
      (handle_toggle env s).2.events ∧
    ∃ pre post, (handle_toggle env s).2.events =
      pre ++ Event.clip_copy (process_text env.cfg (join_space segs)) ::
        Event.note "⚠️ Dictation".data
          ("Could not paste or copy to clipboard.\nText: ".data
            ++ preview_of (process_text env.cfg (join_space segs))) :: post := by
  have htne : (process_text env.cfg (join_space segs)).isEmpty = false := by
    cases hte : (process_text env.cfg (join_space segs)).isEmpty
    · rfl
    · exfalso
      have he : process_text env.cfg (join_space segs) = [] := List.isEmpty_iff.mp hte
      rw [he] at hne
      simp [py_strip, lstrip, rstrip] at hne
  rw [handle_toggle_to_transcribe env s d q path hpi hev hl hp haf hpne hfiles h0 h1 h2 h3]
  simp only [toggle_transcribe, notify, hn, if_true, emit]
  rw [transcribe_audio_success env path _ segs hwh (by simpa using hfiles) heng hn]
  simp only [htne, hne, Bool.or_self, Bool.false_eq_true, if_false]
  rw [toggle_deliver_bothfail env _ _ htne hxdo hxclip hxsel hn]
  have hmem : path ∈ s.audio_files := by simpa using hfiles
  simp only [toggle_cleanup, cleanup_stale_lock, unlink_lock_file, hl,
    Option.isSome_some, if_true]
  cases hkt : env.cfg.keep_temp
  case false =>
    simp only [hkt, Bool.not_false, Bool.true_and, Bool.false_eq_true, if_false,
      hfiles, if_true]
    refine ⟨by trivial, by simp, ?_⟩
    exact ⟨[Event.sigterm (q + 1),
      Event.note "⏳ Dictation".data "Transcribing...".data,
      Event.note "⏳ Transcribing...".data "Processing your audio".data,
      Event.note "✅ Transcription Complete".data
        (if env.cfg.show_transcription = true then
          preview_of (process_text env.cfg (join_space segs))
        else "Processing your audio".data),
      Event.note "📝 Dictation".data
        ("Pasting ".data
          ++ (Nat.repr (py_split (process_text env.cfg (join_space segs))).length).data
          ++ " words...".data),
      Event.type_text (process_text env.cfg (join_space segs)),
      Event.note "❌ Dictation Error".data (xdo_fail_msg env.xdotool)],
      [Event.unlink_lock, Event.unlink_audio path], by simp⟩
  case true =>
    simp only [hkt, Bool.not_true, Bool.false_and, Bool.false_eq_true, if_false]
    refine ⟨by trivial, by simp, ?_⟩
    exact ⟨[Event.sigterm (q + 1),
      Event.note "⏳ Dictation".data "Transcribing...".data,
      Event.note "⏳ Transcribing...".data "Processing your audio".data,
      Event.note "✅ Transcription Complete".data
        (if env.cfg.show_transcription = true then
          preview_of (process_text env.cfg (join_space segs))
        else "Processing your audio".data),
      Event.note "📝 Dictation".data
        ("Pasting ".data
          ++ (Nat.repr (py_split (process_text env.cfg (join_space segs))).length).data
          ++ " words...".data),
      Event.type_text (process_text env.cfg (join_space segs)),
      Event.note "❌ Dictation Error".data (xdo_fail_msg env.xdotool)],
      [Event.unlink_lock], by simp⟩

/-- **C8 counterexample.** A concrete toggle stop path in which xdotool
fails: in the chronological event trace the primary failure is reported to
the user (the critical "❌ Dictation Error" notification, trace position 6)
strictly before the secondary clipboard delivery is attempted (the
clipboard attempt, trace position 7) — refuting "the secondary clipboard
delivery is attempted before any failure is reported to the user". -/
theorem delivery_order_counterexample :
    (handle_toggle env0 st0).2.events.get? 6 =
      some (Event.note "❌ Dictation Error".data "xdotool failed".data) ∧
    (handle_toggle env0 st0).2.events.get? 7 =
      some (Event.clip_copy "hello world".data) :=
  ⟨rfl, rfl⟩

theorem delivery_fallback_ladder_witness :
    ((py_strip (process_text env0.cfg
        (join_space ["hello".data, "world".data]))).isEmpty = false ∧
      env0.xdotool ≠ .ok) ∧
    ((handle_toggle env0 st0).1 = 0 ∧
      Event.clip_copy (process_text env0.cfg
          (join_space ["hello".data, "world".data])) ∈
        (handle_toggle env0 st0).2.events ∧
      ∃ pre post, (handle_toggle env0 st0).2.events =
        pre ++ Event.clip_copy (process_text env0.cfg
            (join_space ["hello".data, "world".data])) ::
          Event.note "⚠️ Dictation".data
            ("Could not paste or copy to clipboard.\nText: ".data
              ++ preview_of (process_text env0.cfg
                  (join_space ["hello".data, "world".data]))) :: post) :=
  ⟨⟨by decide, by decide⟩,
    delivery_fallback_ladder env0 st0 d0 6 path0 ["hello".data, "world".data]
      rfl rfl rfl rfl rfl rfl rfl rfl rfl rfl rfl rfl rfl rfl
      (by decide) (by decide) rfl rfl⟩

theorem handle_toggle_empty_speech_witness :
    ((∀ c ∈ process_text envWs.cfg (join_space [" ".data]), c.isWhitespace = true) ∧
      envWs.engine = some [" ".data]) ∧
    ((handle_toggle envWs st0).1 = 0 ∧
      (handle_toggle envWs st0).2.lock = none ∧
      (envWs.cfg.keep_temp = false →
        Event.unlink_audio path0 ∈ (handle_toggle envWs st0).2.events ∧
        (handle_toggle envWs st0).2.audio_files = st0.audio_files.erase path0) ∧
      (∀ t, Event.type_text t ∉ (handle_toggle envWs st0).2.events) ∧
      (∀ t, Event.clip_copy t ∉ (handle_toggle envWs st0).2.events)) :=
  ⟨⟨by decide, rfl⟩,
    handle_toggle_empty_speech envWs st0 d0 6 path0 [" ".data]
      rfl rfl rfl rfl rfl rfl rfl rfl rfl rfl rfl rfl rfl rfl (by decide)⟩

/-! ## C10: process_text normalisation and idempotence -/

theorem char_toNat_ofNat (n : Nat) (h : n.isValidChar) : (Char.ofNat n).toNat = n := by
  unfold Char.ofNat
  rw [dif_pos h]
  rfl

theorem isWhitespace_iff_toNat (c : Char) :
    c.isWhitespace = true ↔
      c.toNat = 32 ∨ c.toNat = 9 ∨ c.toNat = 13 ∨ c.toNat = 10 := by
  constructor
  · intro h
    unfold Char.isWhitespace at h
    simp only [Bool.or_eq_true, decide_eq_true_eq] at h
    rcases h with ((h | h) | h) | h <;> subst h <;> simp [Char.toNat]
  · intro h
    unfold Char.isWhitespace
    have hv : c = Char.ofNat c.toNat := by rw [Char.ofNat_toNat]
    rcases h with h | h | h | h <;>
      · rw [hv, h]
        decide


theorem py_upper_idem (c : Char) : py_upper (py_upper c) = py_upper c := by
  unfold py_upper
  by_cases h : 97 ≤ c.toNat ∧ c.toNat ≤ 122
  · rw [if_pos h]
    have hv : (c.toNat - 32).isValidChar := Or.inl (by omega)
    have ht : (Char.ofNat (c.toNat - 32)).toNat = c.toNat - 32 := char_toNat_ofNat _ hv
    rw [if_neg]
    omega
  · rw [if_neg h, if_neg h]

theorem py_upper_not_ws (c : Char) (h : c.isWhitespace = false) :
    (py_upper c).isWhitespace = false := by
  unfold py_upper
  by_cases hc : 97 ≤ c.toNat ∧ c.toNat ≤ 122
  · rw [if_pos hc]
    have hv : (c.toNat - 32).isValidChar := Or.inl (by omega)
    have ht : (Char.ofNat (c.toNat - 32)).toNat = c.toNat - 32 := char_toNat_ofNat _ hv
    cases hw : (Char.ofNat (c.toNat - 32)).isWhitespace
    · rfl
    · exfalso
      have := (isWhitespace_iff_toNat _).mp hw
      omega
  · rw [if_neg hc]
    exact h




theorem py_split_aux_good (l : List Char) :
    ∀ acc, (∀ c ∈ acc, c.isWhitespace = false) →
      ∀ w ∈ py_split_aux l acc, w ≠ [] ∧ ∀ c ∈ w, c.isWhitespace = false := by
  induction l with
  | nil =>
      intro acc hacc w hw
      by_cases he : acc.isEmpty
      · simp [py_split_aux, he] at hw
      · simp only [py_split_aux, he, Bool.false_eq_true, if_false,
          List.mem_singleton] at hw
        subst hw
        refine ⟨fun hnil => he ?_, fun c hc => hacc c (List.mem_reverse.mp hc)⟩
        rw [List.isEmpty_iff, ← List.reverse_eq_nil_iff]
        exact hnil
  | cons c rest ih =>
      intro acc hacc w hw
      by_cases hcw : c.isWhitespace
      · by_cases he : acc.isEmpty
        · rw [py_split_aux, if_pos hcw, if_pos he] at hw
          exact ih [] (by simp) w hw
        · rw [py_split_aux, if_pos hcw, if_neg he] at hw
          rcases List.mem_cons.mp hw with hw | hw
          · subst hw
            refine ⟨fun hnil => he ?_, fun c2 hc2 => hacc c2 (List.mem_reverse.mp hc2)⟩
            rw [List.isEmpty_iff, ← List.reverse_eq_nil_iff]
            exact hnil
          · exact ih [] (by simp) w hw
      · rw [py_split_aux, if_neg hcw] at hw
        refine ih (c :: acc) ?_ w hw
        intro c2 hc2
        rcases List.mem_cons.mp hc2 with hc2 | hc2
        · subst hc2
          exact Bool.eq_false_iff.mpr hcw
        · exact hacc c2 hc2

theorem py_split_good (l : List Char) :
    ∀ w ∈ py_split l, w ≠ [] ∧ ∀ c ∈ w, c.isWhitespace = false :=
  py_split_aux_good l [] (by simp)

theorem join_space_cons (w : List Char) (W : List (List Char)) :
    ∃ t, join_space (w :: W) = w ++ t := by
  cases W with
  | nil => exact ⟨[], by simp [join_space]⟩
  | cons v rest => exact ⟨' ' :: join_space (v :: rest), rfl⟩

theorem join_space_head_not_ws (W : List (List Char))
    (hW : ∀ w ∈ W, w ≠ [] ∧ ∀ c ∈ w, c.isWhitespace = false) :
    ∀ x, (join_space W).head? = some x → x.isWhitespace = false := by
  intro x hx
  cases W with
  | nil => simp [join_space] at hx
  | cons w W2 =>
      obtain ⟨t, ht⟩ := join_space_cons w W2
      obtain ⟨hne, hchars⟩ := hW w (by simp)
      cases w with
      | nil => exact absurd rfl hne
      | cons c w2 =>
          rw [ht] at hx
          simp only [List.cons_append, List.head?_cons, Option.some.injEq] at hx
          cases hx
          exact hchars _ (by simp)

theorem join_space_ne_nil (w : List Char) (W : List (List Char)) (hne : w ≠ []) :
    join_space (w :: W) ≠ [] := by
  obtain ⟨t, ht⟩ := join_space_cons w W
  rw [ht]
  cases w with
  | nil => exact absurd rfl hne
  | cons c w2 => simp




theorem all_single_spaced_cons (a : Char) (l : List Char)
    (ha : a.isWhitespace = false) (hl : all_single_spaced l = true) :
    all_single_spaced (a :: l) = true := by
  cases l with
  | nil => rfl
  | cons b t =>
      simp only [all_single_spaced, Bool.and_eq_true] at hl ⊢
      exact ⟨by simp [ha], hl⟩

theorem all_single_spaced_append_word (w l : List Char)
    (hw : ∀ c ∈ w, c.isWhitespace = false) (hl : all_single_spaced l = true) :
    all_single_spaced (w ++ l) = true := by
  induction w with
  | nil => simpa
  | cons c w2 ih =>
      have hc : c.isWhitespace = false := hw c (by simp)
      have htail : all_single_spaced (w2 ++ l) = true :=
        ih (fun c2 h2 => hw c2 (by simp [h2]))
      rw [List.cons_append]
      exact all_single_spaced_cons c (w2 ++ l) hc htail

theorem exists_cons_of_ne_nil {α : Type} (l : List α) (h : l ≠ []) :
    ∃ c t, l = c :: t := by
  cases l with
  | nil => exact absurd rfl h
  | cons c t => exact ⟨c, t, rfl⟩

theorem all_single_spaced_join (W : List (List Char))
    (hW : ∀ w ∈ W, w ≠ [] ∧ ∀ c ∈ w, c.isWhitespace = false) :
    all_single_spaced (join_space W) = true := by
  induction W with
  | nil => rfl
  | cons w W2 ih =>
      have hw := hW w (by simp)
      have hW2 : ∀ w2 ∈ W2, w2 ≠ [] ∧ ∀ c ∈ w2, c.isWhitespace = false :=
        fun w2 h2 => hW w2 (by simp [h2])
      cases W2 with
      | nil =>
          have h1 : all_single_spaced (w ++ []) = true :=
            all_single_spaced_append_word w [] hw.2 rfl
          simpa [join_space] using h1
      | cons v rest =>
          show all_single_spaced (w ++ ' ' :: join_space (v :: rest)) = true
          refine all_single_spaced_append_word w _ hw.2 ?_
          have hJ : all_single_spaced (join_space (v :: rest)) = true := ih hW2
          have hv := hW2 v (by simp)
          obtain ⟨c, v2, hvc⟩ := exists_cons_of_ne_nil v hv.1
          obtain ⟨t, ht⟩ := join_space_cons v rest
          have hc : c.isWhitespace = false := hv.2 c (by rw [hvc]; simp)
          rw [ht, hvc] at hJ ⊢
          simp only [List.cons_append] at hJ ⊢
          simp only [all_single_spaced, Bool.and_eq_true]
          exact ⟨by simp [hc], hJ⟩

theorem all_chars_join (W : List (List Char))
    (hW : ∀ w ∈ W, w ≠ [] ∧ ∀ c ∈ w, c.isWhitespace = false) :
    (join_space W).all (fun c => !c.isWhitespace || c == ' ') = true := by
  induction W with
  | nil => rfl
  | cons w W2 ih =>
      have hw := hW w (by simp)
      have hW2 : ∀ w2 ∈ W2, w2 ≠ [] ∧ ∀ c ∈ w2, c.isWhitespace = false :=
        fun w2 h2 => hW w2 (by simp [h2])
      cases W2 with
      | nil =>
          show (join_space [w]).all _ = true
          simp only [join_space, List.all_eq_true]
          intro c hc
          simp [hw.2 c hc]
      | cons v rest =>
          show (w ++ ' ' :: join_space (v :: rest)).all _ = true
          simp only [List.all_append, List.all_cons, Bool.and_eq_true]
          refine ⟨?_, by decide, ih hW2⟩
          simp only [List.all_eq_true]
          intro c hc
          simp [hw.2 c hc]

theorem getLast_join_not_ws (W : List (List Char))
    (hW : ∀ w ∈ W, w ≠ [] ∧ ∀ c ∈ w, c.isWhitespace = false) :
    ∀ x, (join_space W).getLast? = some x → x.isWhitespace = false := by
  induction W with
  | nil => intro x hx; simp [join_space] at hx
  | cons w W2 ih =>
      intro x hx
      have hw := hW w (by simp)
      have hW2 : ∀ w2 ∈ W2, w2 ≠ [] ∧ ∀ c ∈ w2, c.isWhitespace = false :=
        fun w2 h2 => hW w2 (by simp [h2])
      cases W2 with
      | nil =>
          simp only [join_space] at hx
          have : x ∈ w := List.mem_of_mem_getLast? hx
          exact hw.2 x this
      | cons v rest =>
          have hJne : join_space (v :: rest) ≠ [] :=
            join_space_ne_nil v rest (hW2 v (by simp)).1
          show x.isWhitespace = false
          have hx2 : (' ' :: join_space (v :: rest)).getLast? = some x := by
            have := @List.getLast?_append Char w (' ' :: join_space (v :: rest))
            rw [show join_space (w :: v :: rest) = w ++ ' ' :: join_space (v :: rest) from rfl]
              at hx
            rw [this] at hx
            have hne2 : (' ' :: join_space (v :: rest)).getLast?.isSome = true := by
              simp [List.getLast?_isSome]
            cases hsome : (' ' :: join_space (v :: rest)).getLast? with
            | none => rw [hsome] at hne2; simp at hne2
            | some y =>
                rw [hsome] at hx
                simp only [Option.or_some] at hx
                exact hx
          -- getLast? of ' ' :: J = getLast? of J since J ≠ []
          have hx3 : (join_space (v :: rest)).getLast? = some x := by
            obtain ⟨c, t, hct⟩ := exists_cons_of_ne_nil _ hJne
            rw [hct] at hx2 ⊢
            rwa [List.getLast?_cons_cons] at hx2
          exact ih hW2 x hx3




theorem is_normalized_join (W : List (List Char))
    (hW : ∀ w ∈ W, w ≠ [] ∧ ∀ c ∈ w, c.isWhitespace = false) :
    is_normalized (join_space W) = true := by
  unfold is_normalized
  simp only [Bool.and_eq_true]
  refine ⟨⟨⟨all_chars_join W hW, all_single_spaced_join W hW⟩, ?_⟩, ?_⟩
  · cases hh : (join_space W).head? with
    | none => rfl
    | some c => simp [join_space_head_not_ws W hW c hh]
  · cases hh : (join_space W).getLast? with
    | none => rfl
    | some c => simp [getLast_join_not_ws W hW c hh]

theorem py_split_aux_word (w : List Char) (hw : ∀ c ∈ w, c.isWhitespace = false) :
    ∀ rest acc, py_split_aux (w ++ rest) acc = py_split_aux rest (w.reverse ++ acc) := by
  induction w with
  | nil => intro rest acc; simp
  | cons c w2 ih =>
      intro rest acc
      have hc : c.isWhitespace = false := hw c (by simp)
      rw [List.cons_append, py_split_aux, if_neg (by simp [hc])]
      rw [ih (fun c2 h2 => hw c2 (by simp [h2])) rest (c :: acc)]
      simp

theorem py_split_join (W : List (List Char))
    (hW : ∀ w ∈ W, w ≠ [] ∧ ∀ c ∈ w, c.isWhitespace = false) :
    py_split (join_space W) = W := by
  induction W with
  | nil => rfl
  | cons w W2 ih =>
      have hw := hW w (by simp)
      have hW2 : ∀ w2 ∈ W2, w2 ≠ [] ∧ ∀ c ∈ w2, c.isWhitespace = false :=
        fun w2 h2 => hW w2 (by simp [h2])
      have hwrev : w.reverse.isEmpty = false := by
        cases hrev : w.reverse with
        | nil => exact absurd (List.reverse_eq_nil_iff.mp hrev) hw.1
        | cons a t => rfl
      cases W2 with
      | nil =>
          show py_split_aux (join_space [w]) [] = [w]
          have h1 : join_space [w] = w ++ [] := by simp [join_space]
          rw [h1, py_split_aux_word w hw.2 [] []]
          simp [py_split_aux, hwrev]
      | cons v rest =>
          show py_split_aux (w ++ ' ' :: join_space (v :: rest)) [] = w :: v :: rest
          rw [py_split_aux_word w hw.2 _ []]
          rw [py_split_aux, if_pos (by decide), if_neg (by simp [hwrev])]
          rw [List.append_nil, List.reverse_reverse]
          exact congrArg (w :: ·) (ih hW2)

theorem lstrip_of_head (l : List Char)
    (h : ∀ x, l.head? = some x → x.isWhitespace = false) : lstrip l = l := by
  cases l with
  | nil => rfl
  | cons c t =>
      unfold lstrip
      rw [List.dropWhile_cons, if_neg (by simp [h c rfl])]

theorem rstrip_append (l1 l2 : List Char) (h : rstrip l2 ≠ []) :
    rstrip (l1 ++ l2) = l1 ++ rstrip l2 := by
  induction l1 with
  | nil => rfl
  | cons c t ih =>
      rw [List.cons_append, rstrip, ih]
      cases hm : t ++ rstrip l2 with
      | nil =>
          exfalso
          exact h (List.append_eq_nil.mp hm).2
      | cons a u => simp [hm]

theorem rstrip_all_not_ws (w : List Char) (hw : ∀ c ∈ w, c.isWhitespace = false) :
    rstrip w = w := by
  induction w with
  | nil => rfl
  | cons c cs ih =>
      have hcs : rstrip cs = cs := ih (fun c2 h2 => hw c2 (by simp [h2]))
      rw [rstrip, hcs]
      cases cs with
      | nil => simp [hw c (by simp)]
      | cons a u => rfl

theorem rstrip_join (W : List (List Char))
    (hW : ∀ w ∈ W, w ≠ [] ∧ ∀ c ∈ w, c.isWhitespace = false) :
    rstrip (join_space W) = join_space W := by
  induction W with
  | nil => rfl
  | cons w W2 ih =>
      have hw := hW w (by simp)
      have hW2 : ∀ w2 ∈ W2, w2 ≠ [] ∧ ∀ c ∈ w2, c.isWhitespace = false :=
        fun w2 h2 => hW w2 (by simp [h2])
      cases W2 with
      | nil =>
          show rstrip w = w
          exact rstrip_all_not_ws w hw.2
      | cons v rest =>
          show rstrip (w ++ ' ' :: join_space (v :: rest)) = w ++ ' ' :: join_space (v :: rest)
          have hJ : rstrip (join_space (v :: rest)) = join_space (v :: rest) := ih hW2
          have hJne : join_space (v :: rest) ≠ [] :=
            join_space_ne_nil v rest (hW2 v (by simp)).1
          have hsp : rstrip (' ' :: join_space (v :: rest)) = ' ' :: join_space (v :: rest) := by
            rw [rstrip, hJ]
            cases hm : join_space (v :: rest) with
            | nil => exact absurd hm hJne
            | cons a u => rfl
          rw [rstrip_append w _ (by rw [hsp]; simp), hsp]

theorem lstrip_join (W : List (List Char))
    (hW : ∀ w ∈ W, w ≠ [] ∧ ∀ c ∈ w, c.isWhitespace = false) :
    lstrip (join_space W) = join_space W :=
  lstrip_of_head _ (join_space_head_not_ws W hW)




theorem join_py_split_aux_acc (l : List Char) :
    ∀ acc, acc ≠ [] →
      ∃ t, join_space (py_split_aux l acc) = acc.reverse ++ t := by
  induction l with
  | nil =>
      intro acc hacc
      have he : acc.isEmpty = false := by simp [List.isEmpty_iff, hacc]
      refine ⟨[], ?_⟩
      simp [py_split_aux, he, join_space]
  | cons c rest ih =>
      intro acc hacc
      have he : acc.isEmpty = false := by simp [List.isEmpty_iff, hacc]
      by_cases hcw : c.isWhitespace
      · cases hW : py_split_aux rest [] with
        | nil =>
            refine ⟨[], ?_⟩
            simp [py_split_aux, hcw, he, hW, join_space]
        | cons w ws2 =>
            refine ⟨' ' :: join_space (w :: ws2), ?_⟩
            rw [py_split_aux, if_pos hcw, if_neg (by simp [he]), hW]
            rfl
      · obtain ⟨t, ht⟩ := ih (c :: acc) (by simp)
        refine ⟨c :: t, ?_⟩
        rw [py_split_aux, if_neg hcw, ht]
        simp
  
theorem join_py_split_head (c : Char) (cs : List Char) (hc : c.isWhitespace = false) :
    ∃ t, join_space (py_split (c :: cs)) = c :: t := by
  have h1 : py_split (c :: cs) = py_split_aux cs [c] := by
    rw [py_split, py_split_aux, if_neg (by simp [hc])]
  obtain ⟨t, ht⟩ := join_py_split_aux_acc cs [c] (by simp)
  exact ⟨t, by rw [h1, ht]; rfl⟩

theorem head_lstrip_not_ws (l : List Char) :
    ∀ x, (lstrip l).head? = some x → x.isWhitespace = false := by
  induction l with
  | nil => intro x hx; simp [lstrip] at hx
  | cons c t ih =>
      intro x hx
      by_cases hc : c.isWhitespace
      · rw [lstrip, List.dropWhile_cons, if_pos hc] at hx
        exact ih x hx
      · rw [lstrip, List.dropWhile_cons, if_neg hc] at hx
        simp only [List.head?_cons, Option.some.injEq] at hx
        cases hx
        exact Bool.eq_false_iff.mpr hc

theorem rstrip_head (l : List Char) (c : Char) (cs : List Char)
    (h : rstrip l = c :: cs) : l.head? = some c := by
  cases l with
  | nil => simp [rstrip] at h
  | cons a t =>
      rw [rstrip] at h
      cases hm : rstrip t with
      | nil =>
          rw [hm] at h
          by_cases ha : a.isWhitespace
          · rw [if_pos ha] at h; cases h
          · rw [if_neg ha] at h
            simp only [List.cons.injEq] at h
            simp [h.1]
      | cons b u =>
          rw [hm] at h
          simp only [List.cons.injEq] at h
          simp [h.1]

theorem process_text_of_norm (cfg : Config) (l : List Char)
    (hcap : cfg.auto_capitalize = true →
      capitalize_first (join_space (py_split l)) = join_space (py_split l)) :
    process_text cfg (join_space (py_split l)) = join_space (py_split l) := by
  by_cases hre : (join_space (py_split l)).isEmpty
  · simp [process_text, hre]
  · have hW := py_split_good l
    have hls : lstrip (join_space (py_split l)) = join_space (py_split l) :=
      lstrip_join _ hW
    have hrs : rstrip (join_space (py_split l)) = join_space (py_split l) :=
      rstrip_join _ hW
    have hsplit : py_split (join_space (py_split l)) = py_split l :=
      py_split_join _ hW
    cases hac : cfg.auto_capitalize with
    | false =>
        cases hsl : cfg.strip_leading <;> cases hst : cfg.strip_trailing <;>
          simp [process_text, hre, hsl, hst, hac, hls, hrs, hsplit]
    | true =>
        cases hsl : cfg.strip_leading <;> cases hst : cfg.strip_trailing <;>
          simp [process_text, hre, hsl, hst, hac, hls, hrs, hsplit, hcap hac]




theorem cap_norm_fix (c : Char) (cs : List Char) (hc : c.isWhitespace = false) :
    capitalize_first (join_space (py_split (capitalize_first (c :: cs))))
      = join_space (py_split (capitalize_first (c :: cs))) := by
  have hup : (py_upper c).isWhitespace = false := py_upper_not_ws c hc
  obtain ⟨t4, ht4⟩ := join_py_split_head (py_upper c) cs hup
  show capitalize_first (join_space (py_split (py_upper c :: cs)))
    = join_space (py_split (py_upper c :: cs))
  rw [ht4]
  show py_upper (py_upper c) :: t4 = py_upper c :: t4
  rw [py_upper_idem]

theorem process_text_shape (cfg : Config) (t : List Char) (hte : t.isEmpty = false) :
    process_text cfg t = join_space (py_split
      (if cfg.auto_capitalize &&
          !(if cfg.strip_trailing
            then rstrip (if cfg.strip_leading then lstrip t else t)
            else if cfg.strip_leading then lstrip t else t).isEmpty
       then capitalize_first (if cfg.strip_trailing
            then rstrip (if cfg.strip_leading then lstrip t else t)
            else if cfg.strip_leading then lstrip t else t)
       else if cfg.strip_trailing
            then rstrip (if cfg.strip_leading then lstrip t else t)
            else if cfg.strip_leading then lstrip t else t)) := by
  unfold process_text
  rw [if_neg (by simp [hte])]

/-- **C10 (amended).** For every non-empty input, `process_text` returns a
string with no leading or trailing whitespace and with every internal run
of whitespace collapsed to a single space, unconditionally (the final
`" ".join(text.split())` runs regardless of the strip-spaces setting); and
`process_text` is idempotent whenever auto-capitalisation is disabled or
leading-strip is enabled (the counterexample shows these side conditions
are necessary). -/
theorem process_text_normalizes (cfg : Config) (t : List Char) (h : t ≠ []) :
    is_normalized (process_text cfg t) = true ∧
    (cfg.auto_capitalize = false ∨ cfg.strip_leading = true →
      process_text cfg (process_text cfg t) = process_text cfg t) := by
  have hte : t.isEmpty = false := by simp [List.isEmpty_iff, h]
  constructor
  · rw [process_text_shape cfg t hte]
    exact is_normalized_join _ (py_split_good _)
  · intro hdisj
    cases hac : cfg.auto_capitalize with
    | false =>
        rw [process_text_shape cfg t hte]
        exact process_text_of_norm cfg _ (fun hq => absurd hq (by simp [hac]))
    | true =>
        have hsl : cfg.strip_leading = true := by
          rcases hdisj with hfalse | hsl
          · rw [hac] at hfalse; cases hfalse
          · exact hsl
        cases hT2 : (if cfg.strip_trailing then rstrip (lstrip t) else lstrip t) with
        | nil =>
            have hshape : process_text cfg t = join_space (py_split []) := by
              rw [process_text_shape cfg t hte]
              simp only [hsl, if_true]
              rw [hT2]
              simp
            rw [hshape]
            exact process_text_of_norm cfg [] (fun _ => rfl)
        | cons c cs =>
            have hc : c.isWhitespace = false := by
              cases hstt : cfg.strip_trailing
              · rw [hstt] at hT2
                simp only [Bool.false_eq_true, if_false] at hT2
                exact head_lstrip_not_ws t c (by rw [hT2]; rfl)
              · rw [hstt] at hT2
                simp only [if_true] at hT2
                exact head_lstrip_not_ws t c (rstrip_head _ _ _ hT2)
            have hshape : process_text cfg t
                = join_space (py_split (capitalize_first (c :: cs))) := by
              rw [process_text_shape cfg t hte]
              simp only [hsl, if_true]
              rw [hT2]
              simp [hac]
            rw [hshape]
            exact process_text_of_norm cfg (capitalize_first (c :: cs))
              (fun _ => cap_norm_fix c cs hc)

/-- **C10 counterexample.** With strip-spaces disabled and auto-capitalise
enabled, `process_text` is not idempotent: on the input `" a"` one
application yields `"a"` (the capitalised character was the leading space),
while a second application yields `"A"`. -/
theorem process_text_idem_counterexample :
    process_text cfgX (process_text cfgX (' ' :: 'a' :: [])) ≠
      process_text cfgX (' ' :: 'a' :: []) := by decide

theorem process_text_normalizes_witness :
    ("  hello   world ".data ≠ [] ∧
      (cfg0.auto_capitalize = false ∨ cfg0.strip_leading = true)) ∧
    (is_normalized (process_text cfg0 "  hello   world ".data) = true ∧
      (cfg0.auto_capitalize = false ∨ cfg0.strip_leading = true →
        process_text cfg0 (process_text cfg0 "  hello   world ".data) =
          process_text cfg0 "  hello   world ".data)) :=
  ⟨⟨by decide, Or.inl rfl⟩, process_text_normalizes cfg0 "  hello   world ".data (by decide)⟩

end Dictation
